import Mathlib

/-!
Shallow embedding of mdcat's rendering core (src/context_write.rs,
src/render/mod.rs, src/render/state.rs, src/render/write.rs).

Writes to the output sink are modelled as a list of `OutItem`s; a Rust
`panic!` is modelled by returning `none`.  External collaborators (the
URL parser, the highlighting library, the image pipeline) are abstracted
behind fields of `Settings`, as the spec declares them out of scope.
-/

/-- Terminal colours used by the renderer (`ansi_term::Colour`). -/
inductive Colour
  | Blue
  | Green
  | Yellow
deriving DecidableEq, Repr

/-- The subset of `ansi_term::Style` the renderer manipulates:
foreground colour, bold, italic, strikethrough. -/
structure Style where
  fg : Option Colour
  isBold : Bool
  isItalic : Bool
  isStrikethrough : Bool
deriving DecidableEq, Repr

/-- Rust `Style::new()` -/
def Style.new : Style := ⟨none, false, false, false⟩

/-- Rust `style.fg(colour)` -/
def Style.setFg (s : Style) (c : Colour) : Style := { s with fg := some c }

/-- Rust `style.bold()` -/
def Style.bold (s : Style) : Style := { s with isBold := true }

/-- Rust `style.italic()` -/
def Style.italic (s : Style) : Style := { s with isItalic := true }

/-- Rust `style.strikethrough()` -/
def Style.strikethrough (s : Style) : Style := { s with isStrikethrough := true }

/-- Rust `pulldown_cmark::CodeBlockKind` -/
inductive CodeBlockKind
  | Indented
  | Fenced (name : String)
deriving DecidableEq, Repr

/-- Rust `pulldown_cmark::LinkType` (the variants the spec enumerates). -/
inductive LinkType
  | Inline
  | Reference
  | Autolink
  | Email
  | Shortcut
  | Collapsed
deriving DecidableEq, Repr

/-- Rust `pulldown_cmark::Tag`.  The alignment payload of `Table` is irrelevant
to the renderer (it rejects tables) and is omitted. -/
inductive Tag
  | Paragraph
  | Heading (level : Nat)
  | BlockQuote
  | CodeBlock (kind : CodeBlockKind)
  | List (start : Option Nat)
  | Item
  | FootnoteDefinition (label : String)
  | Table
  | TableHead
  | TableRow
  | TableCell
  | Emphasis
  | Strong
  | Strikethrough
  | Link (linkType : LinkType) (dest : String) (title : String)
  | Image (linkType : LinkType) (dest : String) (title : String)
deriving DecidableEq, Repr

/-- Rust `pulldown_cmark::Event`. -/
inductive Event
  | Start (tag : Tag)
  | End (tag : Tag)
  | Text (s : String)
  | Code (s : String)
  | Html (s : String)
  | FootnoteReference (s : String)
  | SoftBreak
  | HardBreak
  | Rule
  | TaskListMarker (checked : Bool)
deriving DecidableEq, Repr

/-- Rust `StyleCapability` -/
inductive StyleCapability
  | None
  | Ansi
deriving DecidableEq, Repr

/-- Rust `LinkCapability` -/
inductive LinkCapability
  | None
  | OSC8
deriving DecidableEq, Repr

/-- Rust `MarkCapability` -/
inductive MarkCapability
  | None
  | ITerm2
deriving DecidableEq, Repr

/-- Rust `ImageCapability` -/
inductive ImageCapability
  | None
  | Terminology
  | ITerm2
  | Kitty
deriving DecidableEq, Repr

/-- Rust `TerminalCapabilities` -/
structure TerminalCapabilities where
  style : StyleCapability
  links : LinkCapability
  marks : MarkCapability
  image : ImageCapability

/-- Rust `TerminalSize` -/
structure TerminalSize where
  width : Nat
  height : Nat

/-- Rust `Settings`, together with the external collaborators the renderer
calls through it.  `synSet name` models
`settings.syntax_set.find_syntax_by_token(name).is_some()`;
`resolveReference` models URL parsing plus the `base_dir` file-path
fallback (spec §6, external URL parser); `imageRenders` models whether
the external image pipeline succeeds for a resolved URL;
`resourceAccessPermits` models `settings.resource_access.permits`. -/
structure Settings where
  terminalCapabilities : TerminalCapabilities
  terminalSize : TerminalSize
  synSet : String → Bool
  resolveReference : String → Option String
  imageRenders : String → Bool
  resourceAccessPermits : String → Bool

/-- One write to the output sink. -/
inductive OutItem
  | text (s : String)
  | newline
  | styled (st : Style) (s : String)
  | mark
  | osc8Open (url : String)
  | osc8Close
  | inlineImage (url : String)
  | ansiHighlight (s : String)
deriving DecidableEq, Repr

/-- Rust `s.repeat(n)` on Rust strings: `n` concatenated copies. -/
def strRepeat (s : String) : Nat → String
  | 0 => ""
  | n + 1 => s ++ strRepeat s n

/-- Rust `text.ends_with('\n')`. -/
def endsWithLF (s : String) : Bool := s.data.getLast? = some '\n'

/-- Rust `syntect::util::LinesWithEndings`: split into lines, each keeping its
terminating newline; a final line without `\n` is kept, empty input gives
no lines.  `acc` holds the reversed current line. -/
def linesWithEndingsAux : List Char → List Char → List String
  | [], [] => []
  | [], acc => [String.mk acc.reverse]
  | c :: rest, acc =>
    if c = '\n' then String.mk (acc.reverse ++ ['\n']) :: linesWithEndingsAux rest []
    else linesWithEndingsAux rest (c :: acc)

/-- Rust `syntect::util::LinesWithEndings::from(text)` as a list. -/
def linesWithEndings (s : String) : List String := linesWithEndingsAux s.data []

/-- Rust `format!("{:>2}", n)`: decimal, right-justified to width 2. -/
def fmtRightTwo (n : Nat) : String :=
  let s := toString n
  strRepeat " " (2 - s.length) ++ s

namespace Render

/-! Embedding of src/render/state.rs -/

/-- Rust `MarginControl` -/
inductive MarginControl
  | Margin
  | NoMargin
  | NoMarginForHTMLOnly
deriving DecidableEq, Repr

/-- Rust `InlineAttrs` -/
structure InlineAttrs where
  style : Style
  indent : Nat
deriving DecidableEq, Repr

/-- Rust `InlineState` -/
inductive InlineState
  | InlineText
  | InlineLink
  | ListItemText
deriving DecidableEq, Repr

/-- Rust `StyledBlockAttrs` -/
structure StyledBlockAttrs where
  marginBefore : MarginControl
  indent : Nat
  style : Style
deriving DecidableEq, Repr

/-- Rust `StyledBlockAttrs::with_margin_before` -/
def StyledBlockAttrs.withMarginBefore (a : StyledBlockAttrs) : StyledBlockAttrs :=
  { a with marginBefore := MarginControl.Margin }

/-- Rust `StyledBlockAttrs::without_margin_for_html_only` -/
def StyledBlockAttrs.withoutMarginForHtmlOnly (a : StyledBlockAttrs) : StyledBlockAttrs :=
  { a with marginBefore := MarginControl.NoMarginForHTMLOnly }

/-- Rust `HighlightBlockAttrs`.  The `ansi`, `parse_state` and
`highlight_state` fields are handles into the external highlighting
library and carry no information the renderer itself inspects;
only the indent is kept. -/
structure HighlightBlockAttrs where
  indent : Nat
deriving DecidableEq, Repr

/-- Rust `LiteralBlockAttrs` -/
structure LiteralBlockAttrs where
  indent : Nat
  style : Style
deriving DecidableEq, Repr

/-- Rust `ListItemType` -/
inductive ListItemType
  | Unordered
  | Ordered (n : Nat)
deriving DecidableEq, Repr

/-- Rust `ListBlockAttrs` -/
structure ListBlockAttrs where
  itemType : ListItemType
  newlineBefore : Bool
  indent : Nat
  style : Style
deriving DecidableEq, Repr

/-- Rust `ListBlockAttrs::next_item` -/
def ListBlockAttrs.nextItem (a : ListBlockAttrs) : ListBlockAttrs :=
  { a with
    itemType :=
      match a.itemType with
      | ListItemType.Unordered => ListItemType.Unordered
      | ListItemType.Ordered start => ListItemType.Ordered (start + 1)
    newlineBefore := true }

/-- Rust `TopLevelAttrs` -/
structure TopLevelAttrs where
  marginBefore : MarginControl
deriving DecidableEq, Repr

/-- Rust `TopLevelAttrs::margin_before()` -/
def TopLevelAttrs.marginBeforeCtor : TopLevelAttrs := ⟨MarginControl.Margin⟩

/-- Rust `TopLevelAttrs::no_margin_for_html_only()` -/
def TopLevelAttrs.noMarginForHtmlOnly : TopLevelAttrs := ⟨MarginControl.NoMarginForHTMLOnly⟩

/-- Rust `impl Default for TopLevelAttrs` -/
def TopLevelAttrs.default : TopLevelAttrs := ⟨MarginControl.NoMargin⟩

/-- The inner frame of a nested state (Rust enum `NestedState`). -/
inductive NestedState
  | StyledBlock (attrs : StyledBlockAttrs)
  | HighlightBlock (attrs : HighlightBlockAttrs)
  | LiteralBlock (attrs : LiteralBlockAttrs)
  | ListBlock (attrs : ListBlockAttrs)
  | Inline (state : InlineState) (attrs : InlineAttrs)
deriving DecidableEq, Repr

/-- Rust `State` -/
inductive State
  | TopLevel (attrs : TopLevelAttrs)
  | NestedState (returnTo : State) (inner : NestedState)
deriving DecidableEq, Repr

/-- Rust `impl Default for State` -/
def State.default : State := State.TopLevel TopLevelAttrs.default

/-! Embedding of src/render/data.rs, which is not among the sources.

Modelled from the spec: src/render/data.rs (`StateData`, its pending-link
accumulator and `add_link`/`take_links`) is missing from the sources; the
spec (§3 `Link (pending)`, §4.3 Link Registry) states that indices start
at 1, are assigned in encounter order and increase monotonically, and
that draining empties the registry. -/

/-- A pending reference link (spec §3): monotonic index ≥ 1, destination,
title. -/
structure Link where
  index : Nat
  target : String
  title : String
deriving DecidableEq, Repr

/-- Modelled from the spec: `StateData` holds the pending links and the
next index to assign (§4.3: indices start at 1). -/
structure StateData where
  pendingLinks : List Link
  nextLinkIndex : Nat
deriving DecidableEq, Repr

/-- Modelled from the spec: initial state data, next index 1, no pending
links. -/
def StateData.default : StateData := ⟨[], 1⟩

/-- Modelled from the spec: `add(dest, title) -> index` appends a pending
link with the next index and increments it. -/
def StateData.addLink (d : StateData) (target title : String) : StateData × Nat :=
  (⟨d.pendingLinks ++ [⟨d.nextLinkIndex, target, title⟩], d.nextLinkIndex + 1⟩,
    d.nextLinkIndex)

/-- Modelled from the spec: `take_links` removes and returns all pending
links; the index counter is not reset. -/
def StateData.takeLinks (d : StateData) : StateData × List Link :=
  (⟨[], d.nextLinkIndex⟩, d.pendingLinks)

/-! Embedding of src/render/write.rs -/

/-- Rust `write_indent`: `" ".repeat(level)` written raw. -/
def writeIndent (level : Nat) : List OutItem := [OutItem.text (strRepeat " " level)]

/-- Rust `write_styled`: plain text under `StyleCapability::None`, a styled
write under `Ansi`. -/
def writeStyled (capabilities : TerminalCapabilities) (style : Style) (text : String) :
    List OutItem :=
  match capabilities.style with
  | StyleCapability.None => [OutItem.text text]
  | StyleCapability.Ansi => [OutItem.styled style text]

/-- Rust `write_mark` -/
def writeMark (capabilities : TerminalCapabilities) : List OutItem :=
  match capabilities.marks with
  | MarkCapability.ITerm2 => [OutItem.mark]
  | MarkCapability.None => []

/-- Rust `write_rule`: `length` copies of U+2550 in green. -/
def writeRule (capabilities : TerminalCapabilities) (length : Nat) : List OutItem :=
  writeStyled capabilities (Style.new.setFg Colour.Green) (strRepeat "═" length)

/-- Rust `write_border`: `min(width, 20)` copies of U+2500 in green, then a
newline. -/
def writeBorder (capabilities : TerminalCapabilities) (terminalSize : TerminalSize) :
    List OutItem :=
  writeStyled capabilities (Style.new.setFg Colour.Green)
      (strRepeat "─" (Nat.min terminalSize.width 20))
    ++ [OutItem.newline]

/-- Rust `writeln_returning_to_toplevel` -/
def writelnReturningToToplevel (state : State) : List OutItem :=
  match state with
  | State.TopLevel _ => [OutItem.newline]
  | _ => []

/-- Rust `write_link_refs` -/
def writeLinkRefs (capabilities : TerminalCapabilities) (links : List Link) : List OutItem :=
  if links.isEmpty then []
  else
    OutItem.newline ::
      links.flatMap fun link =>
        writeStyled capabilities (Style.new.setFg Colour.Blue)
            ("[" ++ toString link.index ++ "]: " ++ link.target ++ " " ++ link.title)
          ++ [OutItem.newline]

/-- Rust `write_start_code_block`: indent, top border, indent again, then push
either a `HighlightBlock` (ANSI style capability, fenced with a
resolvable nonempty language token) or a `LiteralBlock` with yellow
foreground. -/
def writeStartCodeBlock (settings : Settings) (returnTo : State) (indent : Nat)
    (style : Style) (blockKind : CodeBlockKind) : State × List OutItem :=
  let out := writeIndent indent
    ++ writeBorder settings.terminalCapabilities settings.terminalSize
    ++ writeIndent indent
  let literal := State.NestedState returnTo
    (NestedState.LiteralBlock ⟨indent, style.setFg Colour.Yellow⟩)
  let next : State :=
    match settings.terminalCapabilities.style, blockKind with
    | StyleCapability.Ansi, CodeBlockKind.Fenced name =>
      if name = "" then literal
      else if settings.synSet name then
        State.NestedState returnTo (NestedState.HighlightBlock ⟨indent⟩)
      else literal
    | _, _ => literal
  (next, out)

/-! Embedding of src/render/mod.rs.

`write_event` is one big match in the source; here its arms are grouped
into one helper per state shape (the grouping the source's own arm order
follows), so that each match stays small.  Within each helper the arms
appear in source order; arms of distinct state shapes do not overlap, so
the grouping preserves the source's match semantics.  The final
`End(BlockQuote)` arm of the source, which applies to every nested
state, is repeated in each nested-state helper. -/

/-- Arms of `write_event` for `TopLevel` states. -/
def writeEventTopLevel (settings : Settings) (attrs : TopLevelAttrs) (data : StateData)
    (event : Event) : Option (State × StateData × List OutItem) :=
  match event with
  | Event.Start Tag.Paragraph =>
    let margin := if attrs.marginBefore ≠ MarginControl.NoMargin then [OutItem.newline] else []
    some (State.NestedState (State.TopLevel TopLevelAttrs.marginBeforeCtor)
        (NestedState.Inline InlineState.InlineText ⟨Style.new, 0⟩),
      data, margin)
  | Event.Start (Tag.Heading level) =>
    let taken := data.takeLinks
    let linkOut := writeLinkRefs settings.terminalCapabilities taken.2
    let margin := if attrs.marginBefore ≠ MarginControl.NoMargin then [OutItem.newline] else []
    let style := (Style.new.setFg Colour.Blue).bold
    some (State.NestedState (State.TopLevel TopLevelAttrs.marginBeforeCtor)
        (NestedState.Inline InlineState.InlineText ⟨style, 0⟩),
      taken.1,
      linkOut ++ margin ++ writeMark settings.terminalCapabilities
        ++ writeStyled settings.terminalCapabilities style (strRepeat "┄" level))
  | Event.Start Tag.BlockQuote =>
    let margin := if attrs.marginBefore ≠ MarginControl.NoMargin then [OutItem.newline] else []
    some (State.NestedState (State.TopLevel TopLevelAttrs.marginBeforeCtor)
        (NestedState.StyledBlock
          ⟨MarginControl.NoMargin, 4, (Style.new.italic).setFg Colour.Green⟩),
      data, margin)
  | Event.Rule =>
    let margin := if attrs.marginBefore ≠ MarginControl.NoMargin then [OutItem.newline] else []
    some (State.TopLevel TopLevelAttrs.marginBeforeCtor, data,
      margin ++ writeRule settings.terminalCapabilities settings.terminalSize.width
        ++ [OutItem.newline])
  | Event.Start (Tag.CodeBlock kind) =>
    let margin := if attrs.marginBefore ≠ MarginControl.NoMargin then [OutItem.newline] else []
    let started := writeStartCodeBlock settings
      (State.TopLevel TopLevelAttrs.marginBeforeCtor) 0 Style.new kind
    some (started.1, data, margin ++ started.2)
  | Event.Start (Tag.List start) =>
    let margin := if attrs.marginBefore ≠ MarginControl.NoMargin then [OutItem.newline] else []
    some (State.NestedState (State.TopLevel TopLevelAttrs.marginBeforeCtor)
        (NestedState.ListBlock
          ⟨(match start with
            | some s => ListItemType.Ordered s
            | none => ListItemType.Unordered),
            false, 0, Style.new⟩),
      data, margin)
  | Event.Html html =>
    let margin := if attrs.marginBefore = MarginControl.Margin then [OutItem.newline] else []
    some (State.TopLevel TopLevelAttrs.noMarginForHtmlOnly, data,
      margin ++ writeStyled settings.terminalCapabilities (Style.new.setFg Colour.Green) html)
  -- Code and Text at top level are impossible; everything else is the catch-all panic
  | _ => none

/-- Arms of `write_event` for `StyledBlock` frames. -/
def writeEventStyledBlock (settings : Settings) (returnTo : State) (attrs : StyledBlockAttrs)
    (data : StateData) (event : Event) : Option (State × StateData × List OutItem) :=
  match event with
  | Event.Start Tag.Paragraph =>
    let margin := if attrs.marginBefore ≠ MarginControl.NoMargin then [OutItem.newline] else []
    some (State.NestedState
        (State.NestedState returnTo (NestedState.StyledBlock attrs.withMarginBefore))
        (NestedState.Inline InlineState.InlineText ⟨attrs.style, attrs.indent⟩),
      data, margin ++ writeIndent attrs.indent)
  | Event.Rule =>
    let margin := if attrs.marginBefore ≠ MarginControl.NoMargin then [OutItem.newline] else []
    some (State.NestedState returnTo (NestedState.StyledBlock attrs.withMarginBefore), data,
      margin ++ writeIndent attrs.indent
        ++ writeRule settings.terminalCapabilities (settings.terminalSize.width - attrs.indent)
        ++ [OutItem.newline])
  | Event.Start (Tag.Heading level) =>
    let margin := if attrs.marginBefore ≠ MarginControl.NoMargin then [OutItem.newline] else []
    let style := attrs.style.bold
    some (State.NestedState
        (State.NestedState returnTo (NestedState.StyledBlock attrs.withMarginBefore))
        (NestedState.Inline InlineState.InlineText ⟨style, attrs.indent⟩),
      data,
      margin ++ writeIndent attrs.indent
        ++ writeStyled settings.terminalCapabilities style (strRepeat "┄" level))
  | Event.Start (Tag.List start) =>
    let margin := if attrs.marginBefore ≠ MarginControl.NoMargin then [OutItem.newline] else []
    some (State.NestedState (State.NestedState returnTo (NestedState.StyledBlock attrs))
        (NestedState.ListBlock
          ⟨(match start with
            | some s => ListItemType.Ordered s
            | none => ListItemType.Unordered),
            false, attrs.indent, attrs.style⟩),
      data, margin)
  | Event.Start (Tag.CodeBlock kind) =>
    let margin := if attrs.marginBefore ≠ MarginControl.NoMargin then [OutItem.newline] else []
    let started := writeStartCodeBlock settings
      (State.NestedState returnTo (NestedState.StyledBlock attrs)) attrs.indent attrs.style kind
    some (started.1, data, margin ++ started.2)
  | Event.Html html =>
    let margin := if attrs.marginBefore = MarginControl.Margin then [OutItem.newline] else []
    some (State.NestedState returnTo
        (NestedState.StyledBlock attrs.withoutMarginForHtmlOnly),
      data,
      margin ++ writeIndent attrs.indent
        ++ writeStyled settings.terminalCapabilities (attrs.style.setFg Colour.Green) html)
  | Event.End Tag.Item => some (returnTo, data, [])
  | Event.End Tag.BlockQuote => some (returnTo, data, [])
  | _ => none

/-- Arms of `write_event` for `ListBlock` frames. -/
def writeEventListBlock (settings : Settings) (returnTo : State) (attrs : ListBlockAttrs)
    (data : StateData) (event : Event) : Option (State × StateData × List OutItem) :=
  match event with
  | Event.Start Tag.Item =>
    let pre := (if attrs.newlineBefore then [OutItem.newline] else []) ++ writeIndent attrs.indent
    let markerAndIndent :=
      match attrs.itemType with
      | ListItemType.Unordered => ([OutItem.text "• "], attrs.indent + 2)
      | ListItemType.Ordered no => ([OutItem.text (fmtRightTwo no ++ ". ")], attrs.indent + 4)
    some (State.NestedState
        (State.NestedState returnTo (NestedState.ListBlock attrs.nextItem))
        (NestedState.Inline InlineState.ListItemText ⟨attrs.style, markerAndIndent.2⟩),
      data, pre ++ markerAndIndent.1)
  | Event.End (Tag.List _) =>
    some (returnTo, data, writelnReturningToToplevel returnTo)
  | Event.End Tag.BlockQuote => some (returnTo, data, [])
  | _ => none

/-- Arms of `write_event` for `LiteralBlock` frames. -/
def writeEventLiteralBlock (settings : Settings) (returnTo : State) (attrs : LiteralBlockAttrs)
    (data : StateData) (event : Event) : Option (State × StateData × List OutItem) :=
  match event with
  | Event.Text text =>
    let out := (linesWithEndings text).flatMap fun line =>
      writeStyled settings.terminalCapabilities attrs.style line
        ++ (if endsWithLF line then writeIndent attrs.indent else [])
    some (State.NestedState returnTo (NestedState.LiteralBlock attrs), data, out)
  | Event.End (Tag.CodeBlock _) =>
    some (returnTo, data, writeBorder settings.terminalCapabilities settings.terminalSize)
  | Event.End Tag.BlockQuote => some (returnTo, data, [])
  | _ => none

/-- Arms of `write_event` for `HighlightBlock` frames.  Note: the source
tests `text.ends_with('\n')`, not `line.ends_with('\n')`, inside the
per-line loop. -/
def writeEventHighlightBlock (settings : Settings) (returnTo : State)
    (attrs : HighlightBlockAttrs) (data : StateData) (event : Event) :
    Option (State × StateData × List OutItem) :=
  match event with
  | Event.Text text =>
    let out := (linesWithEndings text).flatMap fun line =>
      OutItem.ansiHighlight line ::
        (if endsWithLF text then writeIndent attrs.indent else [])
    some (State.NestedState returnTo (NestedState.HighlightBlock attrs), data, out)
  | Event.End (Tag.CodeBlock _) =>
    some (returnTo, data, writeBorder settings.terminalCapabilities settings.terminalSize)
  | Event.End Tag.BlockQuote => some (returnTo, data, [])
  | _ => none

/-- Arms of `write_event` for `Inline` frames, in source order: list-item
specific arms first, then generic inline markup, then the link arms. -/
def writeEventInline (settings : Settings) (returnTo : State) (st : InlineState)
    (attrs : InlineAttrs) (data : StateData) (event : Event) :
    Option (State × StateData × List OutItem) :=
  match st, event with
  -- Inside list items
  | InlineState.ListItemText, Event.Start Tag.Paragraph =>
    some (State.NestedState
        (State.NestedState returnTo
          (NestedState.StyledBlock ⟨MarginControl.Margin, attrs.indent, attrs.style⟩))
        (NestedState.Inline InlineState.InlineText attrs),
      data, [])
  | InlineState.ListItemText, Event.Start (Tag.List start) =>
    some (State.NestedState
        (State.NestedState returnTo
          (NestedState.StyledBlock ⟨MarginControl.Margin, attrs.indent, attrs.style⟩))
        (NestedState.ListBlock
          ⟨(match start with
            | some s => ListItemType.Ordered s
            | none => ListItemType.Unordered),
            false, attrs.indent, attrs.style⟩),
      data, [OutItem.newline])
  | InlineState.ListItemText, Event.Start (Tag.CodeBlock kind) =>
    let started := writeStartCodeBlock settings
      (State.NestedState returnTo
        (NestedState.StyledBlock ⟨MarginControl.Margin, attrs.indent, attrs.style⟩))
      attrs.indent attrs.style kind
    some (started.1, data, OutItem.newline :: started.2)
  | InlineState.ListItemText, Event.Rule =>
    some (State.NestedState returnTo
        (NestedState.StyledBlock ⟨MarginControl.Margin, attrs.indent, attrs.style⟩),
      data,
      OutItem.newline :: writeIndent attrs.indent
        ++ writeRule settings.terminalCapabilities (settings.terminalSize.width - attrs.indent)
        ++ [OutItem.newline])
  -- Inline markup
  | _, Event.Start Tag.Emphasis =>
    let style := { attrs.style with isItalic := !attrs.style.isItalic }
    some (State.NestedState (State.NestedState returnTo (NestedState.Inline st attrs))
        (NestedState.Inline InlineState.InlineText ⟨style, attrs.indent⟩),
      data, [])
  | _, Event.End Tag.Emphasis => some (returnTo, data, [])
  | _, Event.Start Tag.Strong =>
    some (State.NestedState (State.NestedState returnTo (NestedState.Inline st attrs))
        (NestedState.Inline InlineState.InlineText ⟨attrs.style.bold, attrs.indent⟩),
      data, [])
  | _, Event.End Tag.Strong => some (returnTo, data, [])
  | _, Event.Start Tag.Strikethrough =>
    some (State.NestedState (State.NestedState returnTo (NestedState.Inline st attrs))
        (NestedState.Inline InlineState.InlineText ⟨attrs.style.strikethrough, attrs.indent⟩),
      data, [])
  | _, Event.End Tag.Strikethrough => some (returnTo, data, [])
  | _, Event.Code code =>
    some (State.NestedState returnTo (NestedState.Inline st attrs), data,
      writeStyled settings.terminalCapabilities (attrs.style.setFg Colour.Yellow) code)
  | InlineState.ListItemText, Event.TaskListMarker checked =>
    let marker := if checked then "☑ " else "☐ "
    some (State.NestedState returnTo (NestedState.Inline InlineState.ListItemText attrs), data,
      writeStyled settings.terminalCapabilities attrs.style marker)
  -- Inline line breaks
  | _, Event.SoftBreak =>
    some (State.NestedState returnTo (NestedState.Inline st attrs), data,
      OutItem.newline :: writeIndent attrs.indent)
  | _, Event.HardBreak =>
    some (State.NestedState returnTo (NestedState.Inline st attrs), data,
      OutItem.newline :: writeIndent attrs.indent)
  -- Inline text
  | _, Event.Text text =>
    some (State.NestedState returnTo (NestedState.Inline st attrs), data,
      writeStyled settings.terminalCapabilities attrs.style text)
  -- Inline HTML
  | _, Event.Html html =>
    some (State.NestedState returnTo (NestedState.Inline st attrs), data,
      writeStyled settings.terminalCapabilities (attrs.style.setFg Colour.Green) html)
  -- Ending inline text
  | InlineState.ListItemText, Event.End Tag.Item => some (returnTo, data, [])
  | _, Event.End Tag.Paragraph => some (returnTo, data, [OutItem.newline])
  | _, Event.End (Tag.Heading _) => some (returnTo, data, [OutItem.newline])
  -- Links
  | InlineState.InlineText, Event.Start (Tag.Link _ target _) =>
    let style := attrs.style.setFg Colour.Blue
    (match settings.terminalCapabilities.links with
    | LinkCapability.OSC8 =>
      match settings.resolveReference target with
      | some url =>
        some (State.NestedState
            (State.NestedState returnTo (NestedState.Inline InlineState.InlineText attrs))
            (NestedState.Inline InlineState.InlineLink ⟨style, attrs.indent⟩),
          data, [OutItem.osc8Open url])
      | none =>
        some (State.NestedState
            (State.NestedState returnTo (NestedState.Inline InlineState.InlineText attrs))
            (NestedState.Inline InlineState.InlineText ⟨style, attrs.indent⟩),
          data, [])
    | LinkCapability.None =>
      some (State.NestedState
          (State.NestedState returnTo (NestedState.Inline InlineState.InlineText attrs))
          (NestedState.Inline InlineState.InlineText ⟨style, attrs.indent⟩),
        data, []))
  | InlineState.InlineLink, Event.End (Tag.Link _ _ _) =>
    (match settings.terminalCapabilities.links with
    | LinkCapability.OSC8 => some (returnTo, data, [OutItem.osc8Close])
    | LinkCapability.None => none)
  | InlineState.InlineText, Event.End (Tag.Link LinkType.Autolink _ _) =>
    some (returnTo, data, [])
  | InlineState.InlineText, Event.End (Tag.Link LinkType.Email _ _) =>
    some (returnTo, data, [])
  | InlineState.InlineText, Event.End (Tag.Link _ target title) =>
    let added := data.addLink target title
    some (returnTo, added.1,
      writeStyled settings.terminalCapabilities (attrs.style.setFg Colour.Blue)
        ("[" ++ toString added.2 ++ "]"))
  -- Unconditional return to the previous state
  | _, Event.End Tag.BlockQuote => some (returnTo, data, [])
  | _, _ => none

/-- Rust `write_event`: the transition function of the rendering state
machine, dispatching on the state shape.  A Rust `panic!` (the
`impossible` helper and the catch-all arm) is modelled by `none`. -/
def writeEvent (settings : Settings) (state : State) (data : StateData) (event : Event) :
    Option (State × StateData × List OutItem) :=
  match state with
  | State.TopLevel attrs => writeEventTopLevel settings attrs data event
  | State.NestedState returnTo inner =>
    match inner with
    | NestedState.StyledBlock attrs => writeEventStyledBlock settings returnTo attrs data event
    | NestedState.ListBlock attrs => writeEventListBlock settings returnTo attrs data event
    | NestedState.LiteralBlock attrs => writeEventLiteralBlock settings returnTo attrs data event
    | NestedState.HighlightBlock attrs =>
      writeEventHighlightBlock settings returnTo attrs data event
    | NestedState.Inline st attrs => writeEventInline settings returnTo st attrs data event


/-- Rust `finish`: the driver's finaliser.  Asserts top level and flushes the
remaining link references; panics otherwise. -/
def finish (settings : Settings) (state : State) (data : StateData) :
    Option (List OutItem) :=
  match state with
  | State.TopLevel _ => some (writeLinkRefs settings.terminalCapabilities data.pendingLinks)
  | _ => none

/-- The driver loop: thread `(state, data)` through `write_event` over the
whole stream, concatenating output; `none` if any step panics. -/
def processEvents (settings : Settings) :
    State → StateData → List Event → Option (State × StateData × List OutItem)
  | state, data, [] => some (state, data, [])
  | state, data, e :: rest =>
    match writeEvent settings state data e with
    | none => none
    | some (state', data', out) =>
      match processEvents settings state' data' rest with
      | none => none
      | some (state'', data'', out') => some (state'', data'', out ++ out')

/-- Nesting depth of a state: 0 at top level. -/
def State.depth : State → Nat
  | State.TopLevel _ => 0
  | State.NestedState returnTo _ => returnTo.depth + 1

end Render

/-- Contribution of one event to the open-tag balance. -/
def Event.delta : Event → Int
  | Event.Start _ => 1
  | Event.End _ => -1
  | _ => 0

/-- Open-tag balance of a stream; a well-formed (balanced) stream has
balance 0. -/
def balance (events : List Event) : Int := (events.map Event.delta).sum

namespace ContextWrite

/-! Embedding of src/context_write.rs, the context-based renderer. -/

/-- Rust `BlockLevel` -/
inductive BlockLevel
  | Block
  | Inline
deriving DecidableEq, Repr

/-- Rust `ListItemKind` -/
inductive ListItemKind
  | Unordered
  | Ordered (n : Nat)
deriving DecidableEq, Repr

/-- Rust `Link` -/
structure Link where
  index : Nat
  destination : String
  title : String
deriving DecidableEq, Repr

/-- Rust `StyleContext`.  `previous` is a Vec: pushed and popped at the end. -/
structure StyleContext where
  current : Style
  previous : List Style
  emphasisLevel : Nat
deriving DecidableEq, Repr

/-- Rust `BlockContext` -/
structure BlockContext where
  indentLevel : Nat
  level : BlockLevel
deriving DecidableEq, Repr

/-- Rust `LinkContext`.  `pending_links` is a VecDeque: pushed at the back,
drained from the front. -/
structure LinkContext where
  pendingLinks : List Link
  nextLinkIndex : Nat
  currentLinkType : Option LinkType
  insideInlineLink : Bool
deriving DecidableEq, Repr

/-- Rust `ImageContext` -/
structure ImageContext where
  inlineImage : Bool
deriving DecidableEq, Repr

/-- Rust `Context`.  The writer is replaced by returned `OutItem` lists; the
`current_highlighter` field holds external library state, of which only
presence (`is_some`) is observable to the renderer. -/
structure Context where
  settings : Settings
  currentHighlighter : Bool
  style : StyleContext
  block : BlockContext
  links : LinkContext
  image : ImageContext
  listItemKind : List ListItemKind

/-- Rust `Context::new` -/
def Context.new (settings : Settings) : Context where
  settings := settings
  currentHighlighter := false
  style := ⟨Style.new, [], 0⟩
  block := ⟨0, BlockLevel.Inline⟩
  links := ⟨[], 1, none, false⟩
  image := ⟨false⟩
  listItemKind := []

/-- Rust `Context::resolve_reference` (the URL parser and `base_dir` join are
external; see `Settings.resolveReference`). -/
def Context.resolveReference (ctx : Context) (reference : String) : Option String :=
  ctx.settings.resolveReference reference

/-- Rust `Context::indent` (write only). -/
def Context.indentOut (ctx : Context) : List OutItem :=
  [OutItem.text (strRepeat " " ctx.block.indentLevel)]

/-- Rust `Context::newline_and_indent` (write only). -/
def Context.newlineAndIndentOut (ctx : Context) : List OutItem :=
  OutItem.newline :: ctx.indentOut

/-- Rust `Context::start_inline_text` -/
def Context.startInlineText (ctx : Context) : Context × List OutItem :=
  let out := match ctx.block.level with
    | BlockLevel.Block => ctx.newlineAndIndentOut
    | BlockLevel.Inline => []
  ({ ctx with block.level := BlockLevel.Inline }, out)

/-- Rust `Context::end_inline_text_with_margin` -/
def Context.endInlineTextWithMargin (ctx : Context) : Context × List OutItem :=
  let out := match ctx.block.level with
    | BlockLevel.Inline => [OutItem.newline]
    | BlockLevel.Block => []
  ({ ctx with block.level := BlockLevel.Block }, out)

/-- Rust `Context::set_style` -/
def Context.setStyle (ctx : Context) (style : Style) : Context :=
  { ctx with
    style.previous := ctx.style.previous ++ [ctx.style.current]
    style.current := style }

/-- Rust `Context::drop_style` -/
def Context.dropStyle (ctx : Context) : Context :=
  match ctx.style.previous.getLast? with
  | some old =>
    { ctx with style.current := old, style.previous := ctx.style.previous.dropLast }
  | none => { ctx with style.current := Style.new }

/-- Rust `Context::write_styled` (write only). -/
def Context.writeStyled (ctx : Context) (style : Style) (text : String) : List OutItem :=
  match ctx.settings.terminalCapabilities.style with
  | StyleCapability.None => [OutItem.text text]
  | StyleCapability.Ansi => [OutItem.styled style text]

/-- Rust `Context::write_styled_current` (write only). -/
def Context.writeStyledCurrent (ctx : Context) (text : String) : List OutItem :=
  ctx.writeStyled ctx.style.current text

/-- Rust `Context::enable_emphasis`: bump the emphasis level and set italic
according to its parity. -/
def Context.enableEmphasis (ctx : Context) : Context :=
  let ctx := { ctx with style.emphasisLevel := ctx.style.emphasisLevel + 1 }
  let isItalic := ctx.style.emphasisLevel % 2 = 1
  ctx.setStyle { ctx.style.current with isItalic := isItalic }

/-- Rust `Context::add_link`: assign the next index, append the pending link,
return the index. -/
def Context.addLink (ctx : Context) (destination title : String) : Context × Nat :=
  let index := ctx.links.nextLinkIndex
  ({ ctx with
      links.nextLinkIndex := ctx.links.nextLinkIndex + 1
      links.pendingLinks := ctx.links.pendingLinks ++ [⟨index, destination, title⟩] },
    index)

/-- Rust `Context::write_pending_links`: drain and print all pending links. -/
def Context.writePendingLinks (ctx : Context) : Context × List OutItem :=
  if ctx.links.pendingLinks.isEmpty then (ctx, [])
  else
    let linkStyle := ctx.style.current.setFg Colour.Blue
    let out := OutItem.newline ::
      ctx.links.pendingLinks.flatMap fun link =>
        ctx.writeStyled linkStyle
            ("[" ++ toString link.index ++ "]: " ++ link.destination ++ " " ++ link.title)
          ++ [OutItem.newline]
    ({ ctx with links.pendingLinks := [] }, out)

/-- Rust `Context::write_border` (write only). -/
def Context.writeBorder (ctx : Context) : List OutItem :=
  ctx.writeStyled (ctx.style.current.setFg Colour.Green)
      (strRepeat "─" (Nat.min ctx.settings.terminalSize.width 20))
    ++ [OutItem.newline]

/-- Rust `Context::write_highlighted` (write only): through the highlighter
when one is current and the terminal is ANSI-styled, else the current
style. -/
def Context.writeHighlighted (ctx : Context) (text : String) : List OutItem :=
  match ctx.currentHighlighter, ctx.settings.terminalCapabilities.style with
  | true, StyleCapability.Ansi => [OutItem.ansiHighlight text]
  | _, _ => ctx.writeStyledCurrent text

/-- Rust `Context::set_mark_if_supported` (write only). -/
def Context.setMarkIfSupported (ctx : Context) : List OutItem :=
  match ctx.settings.terminalCapabilities.marks with
  | MarkCapability.ITerm2 => [OutItem.mark]
  | MarkCapability.None => []

/-- Rust `start_tag`.  A `panic!` is modelled by `none`. -/
def startTag (ctx : Context) (tag : Tag) : Option (Context × List OutItem) :=
  match tag with
  | Tag.Paragraph => some ctx.startInlineText
  | Tag.Heading level =>
    let p := ctx.writePendingLinks
    let s := p.1.startInlineText
    let markOut := s.1.setMarkIfSupported
    let ctx' := s.1.setStyle ((Style.new.setFg Colour.Blue).bold)
    some (ctx', p.2 ++ s.2 ++ markOut ++ ctx'.writeStyledCurrent (strRepeat "┄" level))
  | Tag.BlockQuote =>
    let ctx' := { ctx with block.indentLevel := ctx.block.indentLevel + 4 }
    let s := ctx'.startInlineText
    let ctx'' := s.1.enableEmphasis
    some ({ ctx'' with style.current := ctx''.style.current.setFg Colour.Green }, s.2)
  | Tag.CodeBlock kind =>
    let s := ctx.startInlineText
    let borderOut := s.1.writeBorder
    let highlighter :=
      match kind with
      | CodeBlockKind.Indented => false
      | CodeBlockKind.Fenced name => if name = "" then false else ctx.settings.synSet name
    let ctx' := { s.1 with currentHighlighter := highlighter }
    let ctx'' :=
      if highlighter then ctx'
      else ctx'.setStyle (ctx'.style.current.setFg Colour.Yellow)
    some (ctx'', s.2 ++ borderOut)
  | Tag.List kind =>
    let item :=
      match kind with
      | some start => ListItemKind.Ordered start
      | none => ListItemKind.Unordered
    some ({ ctx with listItemKind := ctx.listItemKind ++ [item] }, [OutItem.newline])
  | Tag.Item =>
    let indentOut := ctx.indentOut
    let ctx' := { ctx with block.level := BlockLevel.Inline }
    (match ctx'.listItemKind.getLast? with
    | some ListItemKind.Unordered =>
      some ({ ctx' with
          block.indentLevel := ctx'.block.indentLevel + 2
          listItemKind := ctx'.listItemKind.dropLast ++ [ListItemKind.Unordered] },
        indentOut ++ [OutItem.text "• "])
    | some (ListItemKind.Ordered number) =>
      some ({ ctx' with
          block.indentLevel := ctx'.block.indentLevel + 4
          listItemKind := ctx'.listItemKind.dropLast ++ [ListItemKind.Ordered (number + 1)] },
        indentOut ++ [OutItem.text (fmtRightTwo number ++ ". ")])
    | none => none)
  | Tag.FootnoteDefinition _ => none
  | Tag.Table => none
  | Tag.TableHead => none
  | Tag.TableRow => none
  | Tag.TableCell => none
  | Tag.Strikethrough => some (ctx.setStyle ctx.style.current.strikethrough, [])
  | Tag.Emphasis => some (ctx.enableEmphasis, [])
  | Tag.Strong => some (ctx.setStyle ctx.style.current.bold, [])
  | Tag.Link linkType destination _ =>
    let ctx' := { ctx with links.currentLinkType := some linkType }
    (match ctx'.settings.terminalCapabilities.links with
    | LinkCapability.OSC8 =>
      match ctx'.resolveReference destination with
      | some url =>
        some ({ ctx' with links.insideInlineLink := true }, [OutItem.osc8Open url])
      | none => some (ctx', [])
    | LinkCapability.None => some (ctx', []))
  | Tag.Image _ link _ =>
    let url := (ctx.resolveReference link).filter fun u => ctx.settings.resourceAccessPermits u
    (match ctx.settings.terminalCapabilities.image, url with
    | ImageCapability.Terminology, some u =>
      some ({ ctx with image.inlineImage := true }, [OutItem.inlineImage u])
    | ImageCapability.ITerm2, some u =>
      if ctx.settings.imageRenders u then
        some ({ ctx with image.inlineImage := true }, [OutItem.inlineImage u])
      else some (ctx, [])
    | ImageCapability.Kitty, some u =>
      if ctx.settings.imageRenders u then
        some ({ ctx with image.inlineImage := true }, [OutItem.inlineImage u])
      else some (ctx, [])
    | _, _ => some (ctx, []))

/-- Rust `end_tag`.  No arm panics; note that the table and footnote tags are
silently ignored here. -/
def endTag (ctx : Context) (tag : Tag) : Context × List OutItem :=
  match tag with
  | Tag.Paragraph => ctx.endInlineTextWithMargin
  | Tag.Heading _ => ctx.dropStyle.endInlineTextWithMargin
  | Tag.BlockQuote =>
    let ctx' := { ctx with
      block.indentLevel := ctx.block.indentLevel - 4
      style.emphasisLevel := ctx.style.emphasisLevel - 1 }
    ctx'.dropStyle.endInlineTextWithMargin
  | Tag.CodeBlock _ =>
    let ctx' :=
      if ctx.currentHighlighter then { ctx with currentHighlighter := false }
      else ctx.dropStyle
    let borderOut := ctx'.writeBorder
    ({ ctx' with block.level := BlockLevel.Block }, borderOut)
  | Tag.List _ =>
    let ctx' := { ctx with listItemKind := ctx.listItemKind.dropLast }
    ctx'.endInlineTextWithMargin
  | Tag.Item =>
    let ctx' :=
      match ctx.listItemKind.getLast? with
      | some (ListItemKind.Ordered _) =>
        { ctx with block.indentLevel := ctx.block.indentLevel - 4 }
      | some ListItemKind.Unordered =>
        { ctx with block.indentLevel := ctx.block.indentLevel - 2 }
      | none => ctx
    ctx'.endInlineTextWithMargin
  | Tag.FootnoteDefinition _ => (ctx, [])
  | Tag.Table => (ctx, [])
  | Tag.TableHead => (ctx, [])
  | Tag.TableRow => (ctx, [])
  | Tag.TableCell => (ctx, [])
  | Tag.Strikethrough => (ctx.dropStyle, [])
  | Tag.Emphasis =>
    let ctx' := ctx.dropStyle
    ({ ctx' with style.emphasisLevel := ctx'.style.emphasisLevel - 1 }, [])
  | Tag.Strong => (ctx.dropStyle, [])
  | Tag.Link _ destination title =>
    if ctx.links.insideInlineLink then
      let out :=
        match ctx.settings.terminalCapabilities.links with
        | LinkCapability.OSC8 => [OutItem.osc8Close]
        | LinkCapability.None => []
      ({ ctx with links.insideInlineLink := false }, out)
    else
      match ctx.links.currentLinkType with
      | some LinkType.Autolink => (ctx, [])
      | some LinkType.Email => (ctx, [])
      | _ =>
        let added := ctx.addLink destination title
        (added.1,
          added.1.writeStyled (added.1.style.current.setFg Colour.Blue)
            ("[" ++ toString added.2 ++ "]"))
  | Tag.Image _ link _ =>
    let out :=
      if ctx.image.inlineImage then []
      else ctx.writeStyled (ctx.style.current.setFg Colour.Blue) (" (" ++ link ++ ")")
    ({ ctx with image.inlineImage := false }, out)

/-- Rust `write_event` of the context renderer.  A `panic!` (footnote
references, the unsupported-construct arms of `start_tag`, a list item
without a list) is modelled by `none`. -/
def writeEvent (ctx : Context) (event : Event) : Option (Context × List OutItem) :=
  match event with
  | Event.SoftBreak => some (ctx, ctx.newlineAndIndentOut)
  | Event.HardBreak => some (ctx, ctx.newlineAndIndentOut)
  | Event.Rule =>
    let s := ctx.startInlineText
    let rule := strRepeat "═" ctx.settings.terminalSize.width
    let ruleOut := s.1.writeStyled (s.1.style.current.setFg Colour.Green) rule
    let e := s.1.endInlineTextWithMargin
    some (e.1, s.2 ++ ruleOut ++ e.2)
  | Event.Code code =>
    some (ctx, ctx.writeStyled (ctx.style.current.setFg Colour.Yellow) code)
  | Event.Text text =>
    if ctx.image.inlineImage then some (ctx, [])
    else some (ctx, ctx.writeHighlighted text)
  | Event.TaskListMarker checked =>
    let marker := if checked then "☑ " else "☐ "
    some (ctx, ctx.writeHighlighted marker)
  | Event.Start tag => startTag ctx tag
  | Event.End tag => some (endTag ctx tag)
  | Event.Html content =>
    some (ctx, ctx.writeStyled (ctx.style.current.setFg Colour.Green) content)
  | Event.FootnoteReference _ => none

end ContextWrite

/-! Concrete data for witnesses and counterexamples. -/

open Render

/-- Concrete settings: ANSI styling, no hyperlink, mark or image
capability, an 80-column terminal, no language or reference resolves. -/
def ansiSettings : Settings where
  terminalCapabilities :=
    ⟨StyleCapability.Ansi, LinkCapability.None, MarkCapability.None, ImageCapability.None⟩
  terminalSize := ⟨80, 24⟩
  synSet := fun _ => false
  resolveReference := fun _ => none
  imageRenders := fun _ => false
  resourceAccessPermits := fun _ => true

/-- The same settings on a 10-column terminal. -/
def narrowSettings : Settings := { ansiSettings with terminalSize := ⟨10, 24⟩ }

/-! Claim theorems. -/

/-- C6: `write_event` on a `ListBlock` frame receiving `End(List)` pops to
the parent state; a trailing newline is emitted exactly when that parent
is `TopLevel`. -/
theorem C6_end_list (settings : Settings) (a : ListBlockAttrs) (d : StateData)
    (start : Option Nat) :
    (∀ tla : TopLevelAttrs,
      writeEvent settings (State.NestedState (State.TopLevel tla) (NestedState.ListBlock a)) d
          (Event.End (Tag.List start)) =
        some (State.TopLevel tla, d, [OutItem.newline]))
    ∧ ∀ (rt : State) (inner : NestedState),
        writeEvent settings
            (State.NestedState (State.NestedState rt inner) (NestedState.ListBlock a)) d
            (Event.End (Tag.List start)) =
          some (State.NestedState rt inner, d, []) := by
  exact ⟨fun tla => rfl, fun rt inner => rfl⟩

/-- C8: `Start(Emphasis)` pushes an inline frame whose style is the parent
style with the italic flag negated; entering emphasis twice yields a frame
whose style (in particular its italic flag) equals the original, and
`End(Emphasis)` returns to the parent state verbatim, writing nothing. -/
theorem C8_emphasis_toggle (settings : Settings) (rt : State) (st : InlineState)
    (a : InlineAttrs) (d : StateData) :
    (writeEvent settings (State.NestedState rt (NestedState.Inline st a)) d
        (Event.Start Tag.Emphasis) =
      some (State.NestedState (State.NestedState rt (NestedState.Inline st a))
          (NestedState.Inline InlineState.InlineText
            ⟨{ a.style with isItalic := !a.style.isItalic }, a.indent⟩),
        d, []))
    ∧ (writeEvent settings
        (State.NestedState (State.NestedState rt (NestedState.Inline st a))
          (NestedState.Inline InlineState.InlineText
            ⟨{ a.style with isItalic := !a.style.isItalic }, a.indent⟩))
        d (Event.Start Tag.Emphasis) =
      some (State.NestedState
          (State.NestedState (State.NestedState rt (NestedState.Inline st a))
            (NestedState.Inline InlineState.InlineText
              ⟨{ a.style with isItalic := !a.style.isItalic }, a.indent⟩))
          (NestedState.Inline InlineState.InlineText
            ⟨{ a.style with isItalic := !(!a.style.isItalic) }, a.indent⟩),
        d, []))
    ∧ ({ a.style with isItalic := !(!a.style.isItalic) } : Style) = a.style
    ∧ ∀ rt' : State,
        writeEvent settings (State.NestedState rt' (NestedState.Inline st a)) d
            (Event.End Tag.Emphasis) =
          some (rt', d, []) := by
  cases st <;>
    exact ⟨rfl, rfl, by rw [Bool.not_not], fun rt' => rfl⟩

/-- C5: `Start(Item)` in a `ListBlock` frame emits a newline exactly when
`newline_before` holds (false on the first item, true after `next_item`),
then the current indent, then the marker, and pushes a `ListItemText`
frame indented by 2 (unordered) or 4 (ordered) more; `next_item`
increments the ordered counter by exactly 1 and sets `newline_before`;
`Start(List)` creates the frame with `newline_before = false`. -/
theorem C5_list_item_start (settings : Settings) (rt : State) (a : ListBlockAttrs)
    (d : StateData) :
    (a.itemType = ListItemType.Unordered →
      writeEvent settings (State.NestedState rt (NestedState.ListBlock a)) d
          (Event.Start Tag.Item) =
        some (State.NestedState (State.NestedState rt (NestedState.ListBlock a.nextItem))
            (NestedState.Inline InlineState.ListItemText ⟨a.style, a.indent + 2⟩),
          d,
          (if a.newlineBefore then [OutItem.newline] else [])
            ++ [OutItem.text (strRepeat " " a.indent), OutItem.text "• "]))
    ∧ (∀ no : Nat, a.itemType = ListItemType.Ordered no →
      writeEvent settings (State.NestedState rt (NestedState.ListBlock a)) d
          (Event.Start Tag.Item) =
        some (State.NestedState (State.NestedState rt (NestedState.ListBlock a.nextItem))
            (NestedState.Inline InlineState.ListItemText ⟨a.style, a.indent + 4⟩),
          d,
          (if a.newlineBefore then [OutItem.newline] else [])
            ++ [OutItem.text (strRepeat " " a.indent),
                OutItem.text (fmtRightTwo no ++ ". ")]))
    ∧ a.nextItem.newlineBefore = true
    ∧ (∀ no : Nat, a.itemType = ListItemType.Ordered no →
        a.nextItem.itemType = ListItemType.Ordered (no + 1))
    ∧ (a.itemType = ListItemType.Unordered → a.nextItem.itemType = ListItemType.Unordered)
    ∧ (∀ (tla : TopLevelAttrs) (start : Option Nat),
        writeEvent settings (State.TopLevel tla) d (Event.Start (Tag.List start)) =
          some (State.NestedState (State.TopLevel ⟨MarginControl.Margin⟩)
              (NestedState.ListBlock
                ⟨(match start with
                  | some s => ListItemType.Ordered s
                  | none => ListItemType.Unordered), false, 0, Style.new⟩),
            d,
            if tla.marginBefore ≠ MarginControl.NoMargin then [OutItem.newline] else [])) := by
  obtain ⟨t, nb, i, st⟩ := a
  refine ⟨?_, ?_, ?_, ?_, ?_, fun tla start => rfl⟩
  · rintro rfl
    cases nb <;> rfl
  · rintro no rfl
    cases nb <;> rfl
  · cases t <;> rfl
  · rintro no rfl
    rfl
  · rintro rfl
    rfl

/-- C5 witness: concrete instance of the ordered-item transition and the
counter increment. -/
theorem C5_list_item_start_witness :
    writeEvent ansiSettings
        (State.NestedState (State.TopLevel ⟨MarginControl.Margin⟩)
          (NestedState.ListBlock ⟨ListItemType.Ordered 2, true, 0, Style.new⟩))
        StateData.default (Event.Start Tag.Item) =
      some (State.NestedState
          (State.NestedState (State.TopLevel ⟨MarginControl.Margin⟩)
            (NestedState.ListBlock ⟨ListItemType.Ordered 3, true, 0, Style.new⟩))
          (NestedState.Inline InlineState.ListItemText ⟨Style.new, 4⟩),
        StateData.default,
        [OutItem.newline, OutItem.text "", OutItem.text " 2. "]) := by
  have h := (C5_list_item_start ansiSettings (State.TopLevel ⟨MarginControl.Margin⟩)
    ⟨ListItemType.Ordered 2, true, 0, Style.new⟩ StateData.default).2.1 2 rfl
  simpa using h

/-- C10: in the state machine of render/mod.rs, `Start(BlockQuote)` in any
nested state falls through to the catch-all panic; only `TopLevel` has a
transition for it. -/
theorem C10_blockquote_only_toplevel (settings : Settings) (d : StateData) :
    (∀ (rt : State) (inner : NestedState),
      writeEvent settings (State.NestedState rt inner) d (Event.Start Tag.BlockQuote) = none)
    ∧ ∀ tla : TopLevelAttrs,
        writeEvent settings (State.TopLevel tla) d (Event.Start Tag.BlockQuote) =
          some (State.NestedState (State.TopLevel ⟨MarginControl.Margin⟩)
              (NestedState.StyledBlock
                ⟨MarginControl.NoMargin, 4, (Style.new.italic).setFg Colour.Green⟩),
            d,
            if tla.marginBefore ≠ MarginControl.NoMargin then [OutItem.newline] else []) := by
  refine ⟨fun rt inner => ?_, fun tla => rfl⟩
  cases inner with
  | Inline st a => cases st <;> rfl
  | StyledBlock a => rfl
  | HighlightBlock a => rfl
  | LiteralBlock a => rfl
  | ListBlock a => rfl

/-- Helper: under the ANSI style capability `write_styled` emits one
styled item. -/
theorem writeStyled_ansi (caps : TerminalCapabilities)
    (h : caps.style = StyleCapability.Ansi) (st : Style) (s : String) :
    writeStyled caps st s = [OutItem.styled st s] := by
  unfold writeStyled
  rw [h]

/-- C7: `End(Link)` on an `InlineLink` frame emits the OSC-8 close
sequence and pops; on an `InlineText` frame with link type Autolink or
Email it pops writing nothing; otherwise it allocates a fresh index in
the link registry, writes `[N]` in blue, and pops. -/
theorem C7_end_link (settings : Settings) (rt : State) (a : InlineAttrs) (d : StateData)
    (lt : LinkType) (dest title : String) :
    (settings.terminalCapabilities.links = LinkCapability.OSC8 →
      writeEvent settings (State.NestedState rt (NestedState.Inline InlineState.InlineLink a)) d
          (Event.End (Tag.Link lt dest title)) =
        some (rt, d, [OutItem.osc8Close]))
    ∧ (lt = LinkType.Autolink ∨ lt = LinkType.Email →
      writeEvent settings (State.NestedState rt (NestedState.Inline InlineState.InlineText a)) d
          (Event.End (Tag.Link lt dest title)) =
        some (rt, d, []))
    ∧ (lt ≠ LinkType.Autolink → lt ≠ LinkType.Email →
      writeEvent settings (State.NestedState rt (NestedState.Inline InlineState.InlineText a)) d
          (Event.End (Tag.Link lt dest title)) =
        some (rt, (d.addLink dest title).1,
          writeStyled settings.terminalCapabilities (a.style.setFg Colour.Blue)
            ("[" ++ toString (d.addLink dest title).2 ++ "]"))) := by
  refine ⟨fun hLinks => ?_, fun h => ?_, fun h1 h2 => ?_⟩
  · have step : writeEvent settings
        (State.NestedState rt (NestedState.Inline InlineState.InlineLink a)) d
        (Event.End (Tag.Link lt dest title)) =
        (match settings.terminalCapabilities.links with
        | LinkCapability.OSC8 => some (rt, d, [OutItem.osc8Close])
        | LinkCapability.None => none) := rfl
    rw [step, hLinks]
  · rcases h with rfl | rfl <;> rfl
  · cases lt
    · rfl
    · rfl
    · exact absurd rfl h1
    · exact absurd rfl h2
    · rfl
    · rfl

/-- C7 witness: concrete reference link, closed at next index 1. -/
theorem C7_end_link_witness :
    writeEvent ansiSettings
        (State.NestedState (State.TopLevel ⟨MarginControl.Margin⟩)
          (NestedState.Inline InlineState.InlineText ⟨Style.new, 0⟩))
        StateData.default
        (Event.End (Tag.Link LinkType.Reference "http://e.com" "")) =
      some (State.TopLevel ⟨MarginControl.Margin⟩,
        ⟨[⟨1, "http://e.com", ""⟩], 2⟩,
        [OutItem.styled (Style.new.setFg Colour.Blue) "[1]"]) := by
  have h := (C7_end_link ansiSettings (State.TopLevel ⟨MarginControl.Margin⟩)
    ⟨Style.new, 0⟩ StateData.default LinkType.Reference "http://e.com" "").2.2
    (by decide) (by decide)
  simpa using h

/-- Helper: the characters of `strRepeat s n` when `s` has a single
character. -/
theorem strRepeat_data (c : Char) (s : String) (hs : s.data = [c]) :
    ∀ n, (strRepeat s n).data = List.replicate n c := by
  intro n
  induction n with
  | zero => rfl
  | succ k ih => simp [strRepeat, String.data_append, hs, ih, List.replicate_succ]

/-- C2 counterexample: on a 10-column terminal the code-block border has
10 U+2500 characters, not at least 20, falsifying the claim as stated. -/
theorem C2_counterexample :
    writeEvent narrowSettings
        (State.NestedState (State.TopLevel ⟨MarginControl.Margin⟩)
          (NestedState.LiteralBlock ⟨0, Style.new⟩))
        StateData.default (Event.End (Tag.CodeBlock CodeBlockKind.Indented)) =
      some (State.TopLevel ⟨MarginControl.Margin⟩, StateData.default,
        [OutItem.styled (Style.new.setFg Colour.Green) "──────────", OutItem.newline])
    ∧ ("──────────" : String).length = 10 ∧ ¬(20 ≤ 10) := by
  refine ⟨by decide, by decide, by decide⟩

/-- C2 (amended): the border emitted when a code block starts (in every
state with a `Start(CodeBlock)` transition) and ends consists of exactly
`min(terminal_width, 20)` U+2500 characters — hence exactly 20 whenever
the terminal is at least 20 columns wide, and never more than the
terminal width — styled green and followed by a newline; the
context renderer's `write_border` emits the same green border. -/
theorem C2_border (settings : Settings)
    (hAnsi : settings.terminalCapabilities.style = StyleCapability.Ansi) :
    ((strRepeat "─" (Nat.min settings.terminalSize.width 20)).data =
        List.replicate (Nat.min settings.terminalSize.width 20) '─'
      ∧ Nat.min settings.terminalSize.width 20 ≤ 20
      ∧ Nat.min settings.terminalSize.width 20 ≤ settings.terminalSize.width
      ∧ (20 ≤ settings.terminalSize.width → Nat.min settings.terminalSize.width 20 = 20))
    ∧ (∀ (rt : State) (a : LiteralBlockAttrs) (d : StateData) (k : CodeBlockKind),
      writeEvent settings (State.NestedState rt (NestedState.LiteralBlock a)) d
          (Event.End (Tag.CodeBlock k)) =
        some (rt, d,
          [OutItem.styled (Style.new.setFg Colour.Green)
              (strRepeat "─" (Nat.min settings.terminalSize.width 20)),
            OutItem.newline]))
    ∧ (∀ (rt : State) (a : HighlightBlockAttrs) (d : StateData) (k : CodeBlockKind),
      writeEvent settings (State.NestedState rt (NestedState.HighlightBlock a)) d
          (Event.End (Tag.CodeBlock k)) =
        some (rt, d,
          [OutItem.styled (Style.new.setFg Colour.Green)
              (strRepeat "─" (Nat.min settings.terminalSize.width 20)),
            OutItem.newline]))
    ∧ (∀ (tla : TopLevelAttrs) (d : StateData) (k : CodeBlockKind), ∃ s2 : State,
      writeEvent settings (State.TopLevel tla) d (Event.Start (Tag.CodeBlock k)) =
        some (s2, d,
          (if tla.marginBefore ≠ MarginControl.NoMargin then [OutItem.newline] else [])
            ++ [OutItem.text (strRepeat " " 0),
                OutItem.styled (Style.new.setFg Colour.Green)
                  (strRepeat "─" (Nat.min settings.terminalSize.width 20)),
                OutItem.newline,
                OutItem.text (strRepeat " " 0)]))
    ∧ (∀ (rt : State) (a : StyledBlockAttrs) (d : StateData) (k : CodeBlockKind), ∃ s2 : State,
      writeEvent settings (State.NestedState rt (NestedState.StyledBlock a)) d
          (Event.Start (Tag.CodeBlock k)) =
        some (s2, d,
          (if a.marginBefore ≠ MarginControl.NoMargin then [OutItem.newline] else [])
            ++ [OutItem.text (strRepeat " " a.indent),
                OutItem.styled (Style.new.setFg Colour.Green)
                  (strRepeat "─" (Nat.min settings.terminalSize.width 20)),
                OutItem.newline,
                OutItem.text (strRepeat " " a.indent)]))
    ∧ (∀ (rt : State) (a : InlineAttrs) (d : StateData) (k : CodeBlockKind), ∃ s2 : State,
      writeEvent settings
          (State.NestedState rt (NestedState.Inline InlineState.ListItemText a)) d
          (Event.Start (Tag.CodeBlock k)) =
        some (s2, d,
          OutItem.newline ::
            [OutItem.text (strRepeat " " a.indent),
              OutItem.styled (Style.new.setFg Colour.Green)
                (strRepeat "─" (Nat.min settings.terminalSize.width 20)),
              OutItem.newline,
              OutItem.text (strRepeat " " a.indent)]))
    ∧ (∀ ctx : ContextWrite.Context, ctx.settings = settings →
      ContextWrite.Context.writeBorder ctx =
        [OutItem.styled (ctx.style.current.setFg Colour.Green)
            (strRepeat "─" (Nat.min settings.terminalSize.width 20)),
          OutItem.newline]) := by
  obtain ⟨⟨cstyle, clinks, cmarks, cimage⟩, sz, sy, rr, ir, ra⟩ := settings
  have hs : cstyle = StyleCapability.Ansi := hAnsi
  subst hs
  refine ⟨⟨strRepeat_data '─' "─" rfl _, Nat.min_le_right _ _, Nat.min_le_left _ _,
      fun h => Nat.min_eq_right h⟩,
    fun rt a d k => rfl, fun rt a d k => rfl,
    fun tla d k => ⟨(writeStartCodeBlock ⟨⟨StyleCapability.Ansi, clinks, cmarks, cimage⟩,
      sz, sy, rr, ir, ra⟩ (State.TopLevel TopLevelAttrs.marginBeforeCtor) 0 Style.new k).1, rfl⟩,
    fun rt a d k => ⟨(writeStartCodeBlock ⟨⟨StyleCapability.Ansi, clinks, cmarks, cimage⟩,
      sz, sy, rr, ir, ra⟩ (State.NestedState rt (NestedState.StyledBlock a)) a.indent
        a.style k).1, rfl⟩,
    fun rt a d k => ⟨(writeStartCodeBlock ⟨⟨StyleCapability.Ansi, clinks, cmarks, cimage⟩,
      sz, sy, rr, ir, ra⟩ (State.NestedState rt
        (NestedState.StyledBlock ⟨MarginControl.Margin, a.indent, a.style⟩)) a.indent
        a.style k).1, rfl⟩,
    fun ctx hctx => ?_⟩
  simp [ContextWrite.Context.writeBorder, ContextWrite.Context.writeStyled, hctx]

/-- C2 witness: instance of the literal-block bottom border at width 80,
where the border is exactly 20 characters. -/
theorem C2_border_witness :
    writeEvent ansiSettings
        (State.NestedState (State.TopLevel ⟨MarginControl.Margin⟩)
          (NestedState.LiteralBlock ⟨0, Style.new⟩))
        StateData.default (Event.End (Tag.CodeBlock CodeBlockKind.Indented)) =
      some (State.TopLevel ⟨MarginControl.Margin⟩, StateData.default,
        [OutItem.styled (Style.new.setFg Colour.Green)
            (strRepeat "─" (Nat.min 80 20)),
          OutItem.newline]) := by
  have h := (C2_border ansiSettings rfl).2.1
    (State.TopLevel ⟨MarginControl.Margin⟩) ⟨0, Style.new⟩ StateData.default
    CodeBlockKind.Indented
  simpa using h

/-- C3: in the `HighlightBlock` Text arm the source tests
`text.ends_with('\n')` — the whole event text — inside the per-line
loop, instead of `line.ends_with('\n')` as the spec states and as the
parallel `LiteralBlock` arm does.  On `Text "a\nb"` the line `"a\n"`
ends with a newline, yet no indent is re-emitted after it, while the
literal-block arm of the very same input does re-emit the indent. -/
theorem C3_highlight_indent_bug :
    writeEvent ansiSettings
        (State.NestedState (State.TopLevel ⟨MarginControl.Margin⟩)
          (NestedState.HighlightBlock ⟨4⟩))
        StateData.default (Event.Text "a\nb") =
      some (State.NestedState (State.TopLevel ⟨MarginControl.Margin⟩)
          (NestedState.HighlightBlock ⟨4⟩),
        StateData.default,
        [OutItem.ansiHighlight "a\n", OutItem.ansiHighlight "b"])
    ∧ linesWithEndings "a\nb" = ["a\n", "b"]
    ∧ endsWithLF "a\n" = true
    ∧ endsWithLF "a\nb" = false
    ∧ writeEvent ansiSettings
        (State.NestedState (State.TopLevel ⟨MarginControl.Margin⟩)
          (NestedState.LiteralBlock ⟨4, Style.new⟩))
        StateData.default (Event.Text "a\nb") =
      some (State.NestedState (State.TopLevel ⟨MarginControl.Margin⟩)
          (NestedState.LiteralBlock ⟨4, Style.new⟩),
        StateData.default,
        [OutItem.styled Style.new "a\n", OutItem.text "    ",
          OutItem.styled Style.new "b"]) := by
  refine ⟨by decide, by decide, by decide, by decide, by decide⟩

/-- One operation against the link registry during a render: adding a
deferred reference link, or draining the pending links (as done before
headings and at finalisation). -/
inductive RegistryOp
  | add (destination title : String)
  | drain

/-- Number of `add` operations. -/
def countAdds : List RegistryOp → Nat
  | [] => 0
  | RegistryOp.add _ _ :: rest => countAdds rest + 1
  | RegistryOp.drain :: rest => countAdds rest

/-- Run registry operations against a context, collecting the indices
`add_link` assigns, in order. -/
def runRegistry : ContextWrite.Context → List RegistryOp → ContextWrite.Context × List Nat
  | ctx, [] => (ctx, [])
  | ctx, RegistryOp.add dest title :: rest =>
    let added := ctx.addLink dest title
    let r := runRegistry added.1 rest
    (r.1, added.2 :: r.2)
  | ctx, RegistryOp.drain :: rest => runRegistry ctx.writePendingLinks.1 rest

/-- Helper: the indices assigned by a run are the consecutive naturals
from the current `next_link_index`. -/
theorem runRegistry_indices (ops : List RegistryOp) :
    ∀ ctx : ContextWrite.Context,
      (runRegistry ctx ops).2 = List.range' ctx.links.nextLinkIndex (countAdds ops) := by
  induction ops with
  | nil => intro ctx; rfl
  | cons op rest ih =>
    intro ctx
    cases op with
    | add dest title =>
      have hnext : ((ctx.addLink dest title).1).links.nextLinkIndex =
          ctx.links.nextLinkIndex + 1 := rfl
      simp [runRegistry, countAdds, ih, hnext, List.range'_succ, ContextWrite.Context.addLink]
    | drain =>
      have hnext : (ctx.writePendingLinks.1).links.nextLinkIndex =
          ctx.links.nextLinkIndex := by
        unfold ContextWrite.Context.writePendingLinks
        split <;> rfl
      simp [runRegistry, countAdds, ih, hnext]

/-- C9: over the lifetime of one render, starting from a fresh context,
the indices assigned to deferred reference links are exactly
`1, 2, ..., k` in order — starting at 1, increasing by exactly 1 per
added link, never reused or decreased even across drains of the pending
links. -/
theorem C9_link_indices (settings : Settings) (ops : List RegistryOp) :
    (runRegistry (ContextWrite.Context.new settings) ops).2 =
      List.range' 1 (countAdds ops) := by
  have h := runRegistry_indices ops (ContextWrite.Context.new settings)
  simpa using h

/-- A table or footnote construct tag. -/
def unsupportedTag (t : Tag) : Prop :=
  t = Tag.Table ∨ t = Tag.TableHead ∨ t = Tag.TableRow ∨ t = Tag.TableCell
    ∨ ∃ label, t = Tag.FootnoteDefinition label

/-- C4 counterexample: `End(Table)` in the context renderer does not
abort — `end_tag` silently ignores it, returning the context unchanged
with no output. -/
theorem C4_counterexample :
    ContextWrite.writeEvent (ContextWrite.Context.new ansiSettings) (Event.End Tag.Table) =
      some (ContextWrite.Context.new ansiSettings, [])
    ∧ ContextWrite.writeEvent (ContextWrite.Context.new ansiSettings) (Event.End Tag.Table)
        ≠ none := by
  refine ⟨rfl, fun h => ?_⟩
  exact Option.noConfusion ((rfl :
    ContextWrite.writeEvent (ContextWrite.Context.new ansiSettings) (Event.End Tag.Table) =
      some (ContextWrite.Context.new ansiSettings, [])) ▸ h)

/-- C4 (amended): `Start` of a table or footnote construct and every
`FootnoteReference` abort fatally in the context renderer, and the state
machine of render/mod.rs aborts on both `Start` and `End` of these
constructs in every state; but `End` of these constructs in the context
renderer is silently ignored (a no-op), not fatal. -/
theorem C4_unsupported_constructs (settings : Settings) (t : Tag) (ht : unsupportedTag t) :
    (∀ ctx : ContextWrite.Context, ContextWrite.writeEvent ctx (Event.Start t) = none)
    ∧ (∀ ctx : ContextWrite.Context, ContextWrite.writeEvent ctx (Event.End t) = some (ctx, []))
    ∧ (∀ (st : State) (d : StateData),
        writeEvent settings st d (Event.Start t) = none
        ∧ writeEvent settings st d (Event.End t) = none)
    ∧ (∀ (st : State) (d : StateData) (s : String),
        writeEvent settings st d (Event.FootnoteReference s) = none)
    ∧ (∀ (ctx : ContextWrite.Context) (s : String),
        ContextWrite.writeEvent ctx (Event.FootnoteReference s) = none) := by
  obtain rfl | rfl | rfl | rfl | ⟨label, rfl⟩ := ht <;>
    refine ⟨fun ctx => rfl, fun ctx => rfl, fun st d => ⟨?_, ?_⟩, fun st d s => ?_,
      fun ctx s => rfl⟩ <;>
    (rcases st with a | ⟨rt, (a | a | a | a | ⟨ist, a⟩)⟩ <;>
      first
      | rfl
      | (cases ist <;> rfl))

/-- C4 witness: `Start(Table)` aborts in the context renderer. -/
theorem C4_unsupported_constructs_witness :
    ContextWrite.writeEvent (ContextWrite.Context.new ansiSettings) (Event.Start Tag.Table) =
      none :=
  (C4_unsupported_constructs ansiSettings Tag.Table (Or.inl rfl)).1
    (ContextWrite.Context.new ansiSettings)

/-- Helper: `write_start_code_block` always pushes exactly one frame over
the state it is told to return to. -/
theorem writeStartCodeBlock_depth (settings : Settings) (rt : State) (indent : Nat)
    (style : Style) (k : CodeBlockKind) :
    (writeStartCodeBlock settings rt indent style k).1.depth = rt.depth + 1 := by
  unfold writeStartCodeBlock
  cases hs : settings.terminalCapabilities.style <;> cases k <;>
    first
    | rfl
    | (dsimp only; split <;> first | rfl | (split <;> rfl))

/-- Helper: depth change of the `TopLevel` arms. -/
theorem writeEventTopLevel_depth (settings : Settings) (a : TopLevelAttrs) (d : StateData)
    (e : Event) (r : State × StateData × List OutItem)
    (h : writeEventTopLevel settings a d e = some r) :
    (r.1.depth : Int) = ((State.TopLevel a).depth : Int) + e.delta := by
  cases e <;> try (rename_i t; cases t)
  all_goals simp only [writeEventTopLevel, Option.some.injEq] at h
  all_goals try exact Option.noConfusion h
  all_goals try subst h
  all_goals simp only [State.depth, Event.delta, writeStartCodeBlock_depth]
  all_goals omega

/-- Helper: depth change of the `StyledBlock` arms. -/
theorem writeEventStyledBlock_depth (settings : Settings) (rt : State)
    (a : StyledBlockAttrs) (d : StateData) (e : Event)
    (r : State × StateData × List OutItem)
    (h : writeEventStyledBlock settings rt a d e = some r) :
    (r.1.depth : Int) =
      ((State.NestedState rt (NestedState.StyledBlock a)).depth : Int) + e.delta := by
  cases e <;> try (rename_i t; cases t)
  all_goals simp only [writeEventStyledBlock, Option.some.injEq] at h
  all_goals try exact Option.noConfusion h
  all_goals try subst h
  all_goals simp only [State.depth, Event.delta, writeStartCodeBlock_depth]
  all_goals omega

/-- Helper: depth change of the `ListBlock` arms. -/
theorem writeEventListBlock_depth (settings : Settings) (rt : State)
    (a : ListBlockAttrs) (d : StateData) (e : Event)
    (r : State × StateData × List OutItem)
    (h : writeEventListBlock settings rt a d e = some r) :
    (r.1.depth : Int) =
      ((State.NestedState rt (NestedState.ListBlock a)).depth : Int) + e.delta := by
  cases e <;> try (rename_i t; cases t)
  all_goals simp only [writeEventListBlock, Option.some.injEq] at h
  all_goals try exact Option.noConfusion h
  all_goals try subst h
  all_goals simp only [State.depth, Event.delta]
  all_goals omega

/-- Helper: depth change of the `LiteralBlock` arms. -/
theorem writeEventLiteralBlock_depth (settings : Settings) (rt : State)
    (a : LiteralBlockAttrs) (d : StateData) (e : Event)
    (r : State × StateData × List OutItem)
    (h : writeEventLiteralBlock settings rt a d e = some r) :
    (r.1.depth : Int) =
      ((State.NestedState rt (NestedState.LiteralBlock a)).depth : Int) + e.delta := by
  cases e <;> try (rename_i t; cases t)
  all_goals simp only [writeEventLiteralBlock, Option.some.injEq] at h
  all_goals try exact Option.noConfusion h
  all_goals try subst h
  all_goals simp only [State.depth, Event.delta]
  all_goals omega

/-- Helper: depth change of the `HighlightBlock` arms. -/
theorem writeEventHighlightBlock_depth (settings : Settings) (rt : State)
    (a : HighlightBlockAttrs) (d : StateData) (e : Event)
    (r : State × StateData × List OutItem)
    (h : writeEventHighlightBlock settings rt a d e = some r) :
    (r.1.depth : Int) =
      ((State.NestedState rt (NestedState.HighlightBlock a)).depth : Int) + e.delta := by
  cases e <;> try (rename_i t; cases t)
  all_goals simp only [writeEventHighlightBlock, Option.some.injEq] at h
  all_goals try exact Option.noConfusion h
  all_goals try subst h
  all_goals simp only [State.depth, Event.delta]
  all_goals omega

/-- Helper: depth change of the `Inline` arms. -/
theorem writeEventInline_depth (settings : Settings) (rt : State) (st : InlineState)
    (a : InlineAttrs) (d : StateData) (e : Event)
    (r : State × StateData × List OutItem)
    (h : writeEventInline settings rt st a d e = some r) :
    (r.1.depth : Int) =
      ((State.NestedState rt (NestedState.Inline st a)).depth : Int) + e.delta := by
  cases st <;> cases e <;> try (rename_i t; cases t)
  all_goals try (rename_i lt dest title; cases lt)
  all_goals simp only [writeEventInline, Option.some.injEq] at h
  all_goals try exact Option.noConfusion h
  all_goals try split at h
  all_goals try split at h
  all_goals try exact Option.noConfusion h
  all_goals try simp only [Option.some.injEq] at h
  all_goals try subst h
  all_goals simp only [State.depth, Event.delta, writeStartCodeBlock_depth]
  all_goals omega

/-- Helper: every successful `write_event` transition changes the nesting
depth by exactly the event's open-tag contribution: +1 on `Start`, −1 on
`End`, 0 otherwise. -/
theorem writeEvent_depth (settings : Settings) (s : State) (d : StateData) (e : Event)
    (r : State × StateData × List OutItem) (h : writeEvent settings s d e = some r) :
    (r.1.depth : Int) = (s.depth : Int) + e.delta := by
  rcases s with a | ⟨rt, inner⟩
  · exact writeEventTopLevel_depth settings a d e r h
  · cases inner with
    | StyledBlock a => exact writeEventStyledBlock_depth settings rt a d e r h
    | HighlightBlock a => exact writeEventHighlightBlock_depth settings rt a d e r h
    | LiteralBlock a => exact writeEventLiteralBlock_depth settings rt a d e r h
    | ListBlock a => exact writeEventListBlock_depth settings rt a d e r h
    | Inline st a => exact writeEventInline_depth settings rt st a d e r h

/-- Helper: over a whole run of the driver loop the final depth is the
initial depth plus the stream's open-tag balance. -/
theorem processEvents_depth (settings : Settings) (events : List Event) :
    ∀ (s : State) (d : StateData) (r : State × StateData × List OutItem),
      processEvents settings s d events = some r →
      (r.1.depth : Int) = (s.depth : Int) + balance events := by
  induction events with
  | nil =>
    intro s d r h
    obtain rfl := Option.some.inj h
    simp [balance]
  | cons e rest ih =>
    intro s d r h
    unfold processEvents at h
    split at h
    · exact Option.noConfusion h
    · rename_i s1 d1 o1 hw
      split at h
      · exact Option.noConfusion h
      · rename_i s2 d2 o2 hp
        obtain rfl := Option.some.inj h
        have h1 := writeEvent_depth settings s d e (s1, d1, o1) hw
        have h2 := ih s1 d1 (s2, d2, o2) hp
        have hb : balance (e :: rest) = e.delta + balance rest := by
          simp [balance]
        rw [hb]
        simp only at h1 h2 ⊢
        omega

/-- Helper: only `TopLevel` states have depth 0. -/
theorem depth_zero_topLevel (s : State) (h : s.depth = 0) :
    ∃ attrs, s = State.TopLevel attrs := by
  cases s with
  | TopLevel a => exact ⟨a, rfl⟩
  | NestedState rt inner => exact absurd h (by simp [State.depth])

/-- C1 counterexample: the single-event stream `[Html "x"]` is balanced
(well-formed) and processes successfully from the default initial state,
yet the final state's `margin_before` is `NoMarginForHTMLOnly`, not
`Margin`. -/
theorem C1_counterexample :
    processEvents ansiSettings State.default StateData.default [Event.Html "x"] =
      some (State.TopLevel ⟨MarginControl.NoMarginForHTMLOnly⟩, StateData.default,
        [OutItem.styled (Style.new.setFg Colour.Green) "x"])
    ∧ balance [Event.Html "x"] = 0
    ∧ MarginControl.NoMarginForHTMLOnly ≠ MarginControl.Margin := by
  refine ⟨by decide, by decide, by decide⟩

/-- C1 (amended): for every balanced (well-formed) event stream whose
processing from the default initial state succeeds, the final state is
`TopLevel`; its `margin_before` need not be `Margin` — it is
`NoMarginForHTMLOnly` when the stream ends with top-level HTML and
`NoMargin` for the empty stream. -/
theorem C1_final_state_topLevel (settings : Settings) (events : List Event) (s : State)
    (d : StateData) (out : List OutItem)
    (hrun : processEvents settings State.default StateData.default events =
      some (s, d, out))
    (hbal : balance events = 0) :
    ∃ attrs, s = State.TopLevel attrs := by
  have hd := processEvents_depth settings events State.default StateData.default
    (s, d, out) hrun
  rw [hbal] at hd
  have h0 : (State.default.depth : Int) = 0 := rfl
  rw [h0] at hd
  simp only at hd
  exact depth_zero_topLevel s (by omega)

/-- C1 witness: a one-paragraph document ends at `TopLevel`. -/
theorem C1_final_state_topLevel_witness :
    ∃ attrs, (State.TopLevel ⟨MarginControl.Margin⟩ : State) = State.TopLevel attrs :=
  C1_final_state_topLevel ansiSettings
    [Event.Start Tag.Paragraph, Event.Text "hi", Event.End Tag.Paragraph]
    (State.TopLevel ⟨MarginControl.Margin⟩) StateData.default
    [OutItem.styled Style.new "hi", OutItem.newline]
    (by decide) (by decide)
